import Mathlib

/-!
Verification of the flow-execution engine (`FlowEngine` in `src/main.py`).

The engine walks a directed graph of named tasks.  Each task is an invocable
unit with a named parameter list (each parameter required or defaulted) that
returns a mapping from output names to values, or raises.  A `Flow` supplies
the start task and a list of `Condition` records driving success/failure
branching.  The embedding below mirrors the Python source line by line:

* Python dicts of outputs become association lists `List (String × Value)`
  (insertion-ordered, like Python dicts);
* a task callable becomes a `Task`: its introspectable signature (parameter
  names and which have defaults) plus a `run` function returning
  `Except String Outputs` (`Except.error` models a raised exception, the
  `String` being the exception detail that the engine swallows);
* the `while` loop becomes fuel-indexed recursion (`execLoop`), returning
  `none` when the fuel is exhausted (a run that has not yet terminated);
* the returned result dicts become an `ExecutionResult` record whose
  optional fields model keys that are present in some return shapes and
  absent in others.
-/

namespace FlowManager

/-- Opaque payload values carried in task outputs. -/
abbrev Value := Nat

/-- A task's output mapping (Python dict), insertion-ordered. -/
abbrev Outputs := List (String × Value)

/-- One parameter of a task's signature.  `hasDefault = false` models
`param.default == inspect.Parameter.empty`, i.e. a required parameter. -/
structure Param where
  name : String
  hasDefault : Bool
  deriving DecidableEq, Repr

/-- A registry entry: the callable's introspectable signature together with
its behaviour.  `run` returns `Except.ok outputs` on normal return and
`Except.error detail` when the invocation raises. -/
structure Task where
  params : List Param
  run : Outputs → Except String Outputs

/-- The task registry: a mapping from task name to callable
(`self.registry` in the source). -/
abbrev Registry := List (String × Task)

/-- A branching rule (`flow["conditions"]` element): `source_task`, the
desired `outcome`, and the two successor fields, either of which may be
absent (`condition.get` in the source returns the absent marker). -/
structure Condition where
  source_task : String
  outcome : String
  target_task_success : Option String := none
  target_task_failure : Option String := none
  deriving DecidableEq, Repr

/-- A flow definition: id, display name, start task, conditions. -/
structure Flow where
  id : String
  name : String
  start_task : String
  conditions : List Condition
  deriving DecidableEq, Repr

/-- One execution-log entry (the dicts appended to `log` in the source):
task name, the desired outcome for it (or none), whether it actually
succeeded, and its outputs (`none` models the Python `None` logged when the
invocation raised). -/
structure LogEntry where
  task : String
  expected_outcome : Option String
  success : Bool
  output : Option Outputs
  deriving DecidableEq, Repr

/-- The result dict returned by `execute`.  Optional fields model dict keys
that only some return shapes carry: the two early-return shapes carry
`message` and omit `flow_id`/`flow_name`; the terminal shape carries
`flow_id`/`flow_name` and no `message`. -/
structure ExecutionResult where
  status : String
  message : Option String := none
  flow_id : Option String := none
  flow_name : Option String := none
  execution_log : List LogEntry
  deriving DecidableEq, Repr

/-- Registry lookup (`current in self.registry` / `self.registry[current]`). -/
def lookupTask (registry : Registry) (name : String) : Option Task :=
  (registry.find? (fun kv => decide (kv.1 = name))).map Prod.snd

/-- First condition whose `source_task` equals the given task
(`next((c for c in flow["conditions"] if c["source_task"] == current), None)`). -/
def findCondition (flow : Flow) (current : String) : Option Condition :=
  flow.conditions.find? (fun c => decide (c.source_task = current))

/-- `FlowEngine._get_next_task`: no condition yields no next task; otherwise
the branch-selected target field is returned as-is (it is an `Option`, so an
absent field propagates as `none`, exactly like `condition.get` in Python). -/
def getNextTask (flow : Flow) (current_task : String) (task_succeeded : Bool) :
    Option String :=
  match findCondition flow current_task with
  | none => none
  | some condition =>
    let desired_outcome := condition.outcome
    let actual_outcome := if task_succeeded then "success" else "failure"
    if actual_outcome = desired_outcome then condition.target_task_success
    else condition.target_task_failure

/-- `FlowEngine._condition_was_met`: vacuously true with no condition,
otherwise whether the actual outcome equals the desired one. -/
def conditionWasMet (flow : Flow) (current_task : String) (task_succeeded : Bool) :
    Bool :=
  match findCondition flow current_task with
  | none => true
  | some condition =>
    decide ((if task_succeeded then "success" else "failure") = condition.outcome)

/-- The parameter names of a task's signature
(`list(sig.parameters.keys())`). -/
def paramNames (task : Task) : List String :=
  task.params.map Param.name

/-- The keyword arguments built for an invocation: the previous task's
outputs restricted to the current task's parameter names
(`{k: v for k, v in previous_task_outputs.items() if k in param_names}`). -/
def taskKwargs (previous_task_outputs : Outputs) (param_names : List String) :
    Outputs :=
  previous_task_outputs.filter (fun kv => decide (kv.1 ∈ param_names))

/-- The `try`/`except` block: invoke the task, produce the success flag, the
`current_task_outputs` value (empty mapping when the invocation raised) and
the log entry to append.  The exception detail is discarded. -/
def invokeTask (task : Task) (kwargs : Outputs) (current : String)
    (expected_outcome : Option String) : Bool × Outputs × LogEntry :=
  match task.run kwargs with
  | Except.ok result => (true, result, ⟨current, expected_outcome, true, some result⟩)
  | Except.error _ => (false, [], ⟨current, expected_outcome, false, none⟩)

/-- Python `repr` of a list of strings, as interpolated by the f-strings in
the two hand-off abort messages. -/
def pyStrList (keys : List String) : String :=
  "[" ++ String.intercalate ", " (keys.map (fun k => "'" ++ k ++ "'")) ++ "]"

/-- Keys of the current outputs that the next task's parameters do not
accept (`incompatible_keys` in the source). -/
def incompatibleKeys (current_task_outputs : Outputs)
    (next_param_names : List String) : List String :=
  (current_task_outputs.map Prod.fst).filter (fun key => decide (key ∉ next_param_names))

/-- The required (no-default) parameters of a signature
(`next_required_params` in the source). -/
def requiredParams (params : List Param) : List Param :=
  params.filter (fun p => !p.hasDefault)

/-- Names of required parameters of the next task absent from the current
outputs (`next_missing_params` in the source). -/
def missingParams (current_task_outputs : Outputs) (params : List Param) :
    List String :=
  ((requiredParams params).filter
    (fun p => decide (p.name ∉ current_task_outputs.map Prod.fst))).map Param.name

/-- Message of the unknown-task early return. -/
def unknownTaskMsg (current : String) : String :=
  "Task '" ++ current ++ "' not found in registry"

/-- Message of the incompatible-outputs early return. -/
def incompatibleMsg (next_task current : String) (keys : List String) : String :=
  "Task '" ++ next_task ++ "' does not accept outputs from '" ++ current ++ "': "
    ++ pyStrList keys

/-- Message of the missing-parameters early return. -/
def missingMsg (next_task current : String) (names : List String) : String :=
  "Task '" ++ next_task ++ "' is missing required parameters from previous task '"
    ++ current ++ "': " ++ pyStrList names

/-- The loop-local state of `execute`: the accumulated log, the current task
name, the previous task's outputs and the `flow_failed` flag. -/
structure EngState where
  log : List LogEntry
  current : String
  previous_task_outputs : Outputs
  flow_failed : Bool
  deriving DecidableEq, Repr

/-- The terminal result built after the loop exits normally (reaching the
end sentinel or breaking): `failed` when `flow_failed` is set, else
`completed`, with the flow's id and name and the accumulated log. -/
def finalResult (flow : Flow) (st : EngState) : ExecutionResult :=
  { status := if st.flow_failed then "failed" else "completed"
    flow_id := some flow.id
    flow_name := some flow.name
    execution_log := st.log }

/-- The early-return result shape shared by the three abort paths:
status `failure`, a message, the log so far, and no flow id/name. -/
def failureResult (msg : String) (log : List LogEntry) : ExecutionResult :=
  { status := "failure"
    message := some msg
    execution_log := log }

/-- The outcome of one loop body after the invocation: either the loop ends
with a result, or it continues with an updated state. -/
inductive StepOut where
  | ret (r : ExecutionResult)
  | next (st : EngState)

/-- Lines 68–103 of the source: when the resolved next task is a real task
(not the end sentinel) known to the registry, check the hand-off; `some r`
is an abort with one of the two `failure` shapes, `none` means the run goes
on. -/
def validateHandoff (registry : Registry) (next_task current : String)
    (current_task_outputs : Outputs) (log : List LogEntry) :
    Option ExecutionResult :=
  if next_task = "end" then none
  else
    match lookupTask registry next_task with
    | none => none
    | some next_task_func =>
      let ik := incompatibleKeys current_task_outputs (paramNames next_task_func)
      if ik ≠ [] then
        some (failureResult (incompatibleMsg next_task current ik) log)
      else
        let mp := missingParams current_task_outputs next_task_func.params
        if mp ≠ [] then
          some (failureResult (missingMsg next_task current mp) log)
        else none

/-- Lines 64–110 of the source, after the `try`/`except` block: resolve the
next task (a `none` breaks the loop and finalizes with the *current*
`flow_failed`), validate the hand-off when the next task is a real task in
the registry (returning one of the two `failure` shapes on a violation),
then record a branch mismatch in `flow_failed` and advance. -/
def afterInvoke (registry : Registry) (flow : Flow) (st : EngState)
    (task_succeeded : Bool) (current_task_outputs : Outputs) (entry : LogEntry) :
    StepOut :=
  let log := st.log ++ [entry]
  match getNextTask flow st.current task_succeeded with
  | none => StepOut.ret (finalResult flow { st with log := log })
  | some next_task =>
    match validateHandoff registry next_task st.current current_task_outputs log with
    | some r => StepOut.ret r
    | none =>
      StepOut.next
        { log := log
          current := next_task
          previous_task_outputs := current_task_outputs
          flow_failed := st.flow_failed || !(conditionWasMet flow st.current task_succeeded) }

/-- The `while current != "end"` loop of `FlowEngine.execute`, indexed by
fuel; `none` means the fuel ran out before the run terminated. -/
def execLoop (registry : Registry) (flow : Flow) : Nat → EngState → Option ExecutionResult
  | 0, _ => none
  | fuel + 1, st =>
    if st.current = "end" then some (finalResult flow st)
    else
      match lookupTask registry st.current with
      | none => some (failureResult (unknownTaskMsg st.current) st.log)
      | some task_func =>
        let expected_outcome := (findCondition flow st.current).map Condition.outcome
        let kwargs := taskKwargs st.previous_task_outputs (paramNames task_func)
        match invokeTask task_func kwargs st.current expected_outcome with
        | (task_succeeded, current_task_outputs, entry) =>
          match afterInvoke registry flow st task_succeeded current_task_outputs entry with
          | StepOut.ret r => some r
          | StepOut.next st' => execLoop registry flow fuel st'

/-- The initial loop state of a run. -/
def initState (flow : Flow) : EngState :=
  { log := [], current := flow.start_task, previous_task_outputs := [], flow_failed := false }

/-- `FlowEngine.execute` on a fresh engine state. -/
def execute (registry : Registry) (flow : Flow) (fuel : Nat) : Option ExecutionResult :=
  execLoop registry flow fuel (initState flow)

/-- A `FlowEngine` instance: its only attribute is the registry fixed at
construction. -/
structure FlowEngine where
  registry : Registry

/-- `execute` as a method threading the engine instance: the Python body
assigns nothing to `self` or to any global, so the engine after the call is
the engine before it. -/
def FlowEngine.run (engine : FlowEngine) (flow : Flow) (fuel : Nat) :
    Option ExecutionResult × FlowEngine :=
  (execLoop engine.registry flow fuel (initState flow), engine)

/-! ### Helper lemmas -/

/-- Unfolding one loop iteration when the current task is a real task found
in the registry. -/
lemma execLoop_step (R : Registry) (flow : Flow) (fuel : Nat) (st : EngState) (tf : Task)
    (hcur : st.current ≠ "end") (hlook : lookupTask R st.current = some tf) :
    execLoop R flow (fuel + 1) st
      = match invokeTask tf (taskKwargs st.previous_task_outputs (paramNames tf))
          st.current ((findCondition flow st.current).map Condition.outcome) with
        | (s, o, e) =>
          match afterInvoke R flow st s o e with
          | StepOut.ret r => some r
          | StepOut.next st' => execLoop R flow fuel st' := by
  rw [execLoop, if_neg hcur, hlook]

/-- Any abort produced by the hand-off validation is a `failureResult`
carrying the supplied log. -/
lemma validateHandoff_shape (R : Registry) (nt cur : String) (outs : Outputs)
    (log : List LogEntry) (r : ExecutionResult)
    (h : validateHandoff R nt cur outs log = some r) :
    ∃ msg, r = failureResult msg log := by
  unfold validateHandoff at h
  by_cases he : nt = "end"
  · rw [if_pos he] at h
    exact absurd h (by simp)
  · rw [if_neg he] at h
    cases hl : lookupTask R nt with
    | none => rw [hl] at h; exact absurd h (by simp)
    | some f =>
      rw [hl] at h
      simp only [] at h
      split_ifs at h with h1 h2
      · exact ⟨_, (Option.some.inj h).symm⟩
      · exact ⟨_, (Option.some.inj h).symm⟩

/-- The three possible outcomes of the post-invocation part of a loop body:
an abort with one of the two `failure` shapes, a break finalizing with the
current `flow_failed`, or a continuation whose state appends the entry,
moves to the resolved next task, installs the current outputs and ORs a
branch mismatch into `flow_failed`. -/
lemma afterInvoke_out (R : Registry) (flow : Flow) (st : EngState)
    (succ : Bool) (outs : Outputs) (entry : LogEntry) :
    (∃ msg, afterInvoke R flow st succ outs entry
        = StepOut.ret (failureResult msg (st.log ++ [entry]))) ∨
    afterInvoke R flow st succ outs entry
        = StepOut.ret (finalResult flow { st with log := st.log ++ [entry] }) ∨
    ∃ nt, afterInvoke R flow st succ outs entry
        = StepOut.next
            { log := st.log ++ [entry]
              current := nt
              previous_task_outputs := outs
              flow_failed := st.flow_failed || !(conditionWasMet flow st.current succ) } := by
  unfold afterInvoke
  cases hg : getNextTask flow st.current succ with
  | none => right; left; rfl
  | some nt =>
    simp only []
    cases hv : validateHandoff R nt st.current outs (st.log ++ [entry]) with
    | none => right; right; exact ⟨nt, rfl⟩
    | some r =>
      left
      obtain ⟨msg, hmsg⟩ := validateHandoff_shape R nt st.current outs (st.log ++ [entry]) r hv
      exact ⟨msg, by rw [hmsg]⟩

/-- Once `flow_failed` is set it is never cleared: every terminal (non-abort)
result reachable from a state with the flag set has status `failed`. -/
lemma execLoop_failed_persists (R : Registry) (flow : Flow) :
    ∀ fuel (st : EngState) (r : ExecutionResult), st.flow_failed = true →
      execLoop R flow fuel st = some r → r.message = none → r.status = "failed" := by
  intro fuel
  induction fuel with
  | zero => intro st r _ h _; simp [execLoop] at h
  | succ n ih =>
    intro st r hf h hm
    by_cases hc : st.current = "end"
    · rw [execLoop, if_pos hc] at h
      cases Option.some.inj h
      simp [finalResult, hf]
    · cases hl : lookupTask R st.current with
      | none =>
        rw [execLoop, if_neg hc, hl] at h
        cases Option.some.inj h
        simp [failureResult] at hm
      | some tf =>
        rw [execLoop_step R flow n st tf hc hl] at h
        rcases hinv : invokeTask tf (taskKwargs st.previous_task_outputs (paramNames tf))
            st.current ((findCondition flow st.current).map Condition.outcome) with
          ⟨succ, outs, entry⟩
        rw [hinv] at h
        have h' : (match afterInvoke R flow st succ outs entry with
            | StepOut.ret r => some r
            | StepOut.next st' => execLoop R flow n st') = some r := h
        rcases afterInvoke_out R flow st succ outs entry with
          ⟨msg, ha⟩ | ha | ⟨nt, ha⟩
        · rw [ha] at h'
          cases Option.some.inj h'
          simp [failureResult] at hm
        · rw [ha] at h'
          cases Option.some.inj h'
          simp [finalResult, hf]
        · rw [ha] at h'
          exact ih _ r (by simp [hf]) h' hm

/-- Shape invariant of every result the loop can produce: `failure` results
carry a message and no flow id/name; terminal results have status
`completed` or `failed`, no message, and the flow's id and name. -/
lemma execLoop_shape (R : Registry) (flow : Flow) :
    ∀ fuel (st : EngState) (r : ExecutionResult), execLoop R flow fuel st = some r →
      (r.status = "failure" ∧ r.message.isSome = true ∧ r.flow_id = none ∧ r.flow_name = none) ∨
      ((r.status = "completed" ∨ r.status = "failed") ∧ r.message = none ∧
        r.flow_id = some flow.id ∧ r.flow_name = some flow.name) := by
  intro fuel
  induction fuel with
  | zero => intro st r h; simp [execLoop] at h
  | succ n ih =>
    intro st r h
    by_cases hc : st.current = "end"
    · rw [execLoop, if_pos hc] at h
      cases Option.some.inj h
      right
      unfold finalResult
      by_cases hf : st.flow_failed <;> simp [hf]
    · cases hl : lookupTask R st.current with
      | none =>
        rw [execLoop, if_neg hc, hl] at h
        cases Option.some.inj h
        left
        simp [failureResult]
      | some tf =>
        rw [execLoop_step R flow n st tf hc hl] at h
        rcases hinv : invokeTask tf (taskKwargs st.previous_task_outputs (paramNames tf))
            st.current ((findCondition flow st.current).map Condition.outcome) with
          ⟨succ, outs, entry⟩
        rw [hinv] at h
        have h' : (match afterInvoke R flow st succ outs entry with
            | StepOut.ret r => some r
            | StepOut.next st' => execLoop R flow n st') = some r := h
        rcases afterInvoke_out R flow st succ outs entry with
          ⟨msg, ha⟩ | ha | ⟨nt, ha⟩
        · rw [ha] at h'
          cases Option.some.inj h'
          left
          simp [failureResult]
        · rw [ha] at h'
          cases Option.some.inj h'
          right
          unfold finalResult
          by_cases hf : st.flow_failed <;> simp [hf]
        · rw [ha] at h'
          exact ih _ r h'

/-! ### Claim theorems -/

/-- C4: whenever the current task name is a real task (not the end sentinel)
absent from the registry, the executor immediately returns status `failure`
with a message naming the missing task and the log accumulated so far,
without logging the missing task.  Instantiating the state with the fresh
start state gives the particular case: a flow whose start task is absent
from the registry yields status `failure` with an empty execution log. -/
theorem unknown_task_aborts
    (R : Registry) (flow : Flow) (fuel : Nat) (st : EngState)
    (hcur : st.current ≠ "end")
    (hmiss : lookupTask R st.current = none) :
    execLoop R flow (fuel + 1) st
      = some { status := "failure", message := some (unknownTaskMsg st.current)
               flow_id := none, flow_name := none, execution_log := st.log } := by
  rw [execLoop, if_neg hcur, hmiss]
  rfl

/-- Witness for C4: a flow starting at the unregistered task `ghost` aborts
with the unknown-task `failure` result and an empty log. -/
theorem unknown_task_aborts_witness :
    execLoop [("a", ⟨[], fun _ => Except.ok []⟩)] ⟨"f5", "F5", "ghost", []⟩ 5
        (initState ⟨"f5", "F5", "ghost", []⟩)
      = some { status := "failure", message := some (unknownTaskMsg "ghost")
               flow_id := none, flow_name := none, execution_log := [] } :=
  unknown_task_aborts _ _ 4 _ (by decide) rfl

/-- C6: a task without a matching Condition is invoked and logged, then the
loop stops at once without touching `flow_failed`; the final status is
derived from the flag as it already stood, so it is `completed` whenever no
earlier branch mismatch was recorded. -/
theorem no_condition_stops_completed
    (R : Registry) (flow : Flow) (fuel : Nat) (st : EngState) (tf : Task)
    (succ : Bool) (outs : Outputs) (entry : LogEntry)
    (hcur : st.current ≠ "end")
    (hlook : lookupTask R st.current = some tf)
    (hcond : findCondition flow st.current = none)
    (hinv : invokeTask tf (taskKwargs st.previous_task_outputs (paramNames tf))
        st.current none = (succ, outs, entry)) :
    execLoop R flow (fuel + 1) st
      = some { status := if st.flow_failed then "failed" else "completed"
               message := none, flow_id := some flow.id, flow_name := some flow.name
               execution_log := st.log ++ [entry] } := by
  have hg : getNextTask flow st.current succ = none := by
    unfold getNextTask
    rw [hcond]
  rw [execLoop_step R flow fuel st tf hcur hlook]
  simp only [hcond, Option.map_none']
  rw [hinv]
  show (match afterInvoke R flow st succ outs entry with
        | StepOut.ret r => some r
        | StepOut.next st' => execLoop R flow fuel st') = _
  simp only [afterInvoke, hg]
  rfl

/-- Witness for C6: a run reaching a condition-less task logs it and ends
with status `completed`. -/
theorem no_condition_stops_completed_witness :
    execLoop [("a", ⟨[], fun _ => Except.ok []⟩)] ⟨"f9", "F9", "a", []⟩ 5
        ⟨[], "a", [], false⟩
      = some { status := "completed", message := none
               flow_id := some "f9", flow_name := some "F9"
               execution_log := [⟨"a", none, true, some []⟩] } :=
  no_condition_stops_completed _ _ 4 _ ⟨[], fun _ => Except.ok []⟩ true []
    ⟨"a", none, true, some []⟩ (by decide) rfl rfl rfl

/-- C5: a raised task fault is caught: the invocation is recorded as
`success = false` with output `none` and an empty outputs mapping, and the
run proceeds into the normal post-invocation logic (branch resolution on
the failure outcome); nothing on the right-hand side mentions the fault's
detail, so the detail never reaches the returned result. -/
theorem task_fault_swallowed
    (R : Registry) (flow : Flow) (fuel : Nat) (st : EngState) (tf : Task) (err : String)
    (hcur : st.current ≠ "end")
    (hlook : lookupTask R st.current = some tf)
    (hrun : tf.run (taskKwargs st.previous_task_outputs (paramNames tf)) = Except.error err) :
    invokeTask tf (taskKwargs st.previous_task_outputs (paramNames tf)) st.current
        ((findCondition flow st.current).map Condition.outcome)
      = (false, [],
          ⟨st.current, (findCondition flow st.current).map Condition.outcome, false, none⟩) ∧
    execLoop R flow (fuel + 1) st
      = (match afterInvoke R flow st false []
            ⟨st.current, (findCondition flow st.current).map Condition.outcome, false, none⟩ with
         | StepOut.ret r => some r
         | StepOut.next st' => execLoop R flow fuel st') := by
  have hi : invokeTask tf (taskKwargs st.previous_task_outputs (paramNames tf)) st.current
      ((findCondition flow st.current).map Condition.outcome)
    = (false, [],
        ⟨st.current, (findCondition flow st.current).map Condition.outcome, false, none⟩) := by
    unfold invokeTask
    rw [hrun]
  refine ⟨hi, ?_⟩
  rw [execLoop_step R flow fuel st tf hcur hlook, hi]

/-- Witness for C5: a task raising `"boom"` is logged as a failure with no
output and the run proceeds into branch resolution. -/
theorem task_fault_swallowed_witness :
    invokeTask ⟨[], fun _ => Except.error "boom"⟩ [] "a" (some "success")
      = (false, [], ⟨"a", some "success", false, none⟩) ∧
    execLoop [("a", ⟨[], fun _ => Except.error "boom"⟩)]
        ⟨"f2", "Flow2", "a", [⟨"a", "success", some "end", none⟩]⟩ 5 ⟨[], "a", [], false⟩
      = (match afterInvoke [("a", ⟨[], fun _ => Except.error "boom"⟩)]
            ⟨"f2", "Flow2", "a", [⟨"a", "success", some "end", none⟩]⟩ ⟨[], "a", [], false⟩
            false [] ⟨"a", some "success", false, none⟩ with
         | StepOut.ret r => some r
         | StepOut.next st' => execLoop [("a", ⟨[], fun _ => Except.error "boom"⟩)]
             ⟨"f2", "Flow2", "a", [⟨"a", "success", some "end", none⟩]⟩ 4 st') :=
  task_fault_swallowed [("a", ⟨[], fun _ => Except.error "boom"⟩)]
    ⟨"f2", "Flow2", "a", [⟨"a", "success", some "end", none⟩]⟩ 4 ⟨[], "a", [], false⟩
    ⟨[], fun _ => Except.error "boom"⟩ "boom" (by decide) rfl rfl

/-- C1 (amended): when a Condition exists for the current task but the
branch-selected target field is absent, `getNextTask` yields no next task
and the executor breaks the loop exactly as in the missing-condition case:
the run finalizes as a successful early stop (status `completed` or
`failed`, never the unknown-task `failure`). -/
theorem absent_target_stops_loop
    (R : Registry) (flow : Flow) (fuel : Nat) (st : EngState) (tf : Task) (c : Condition)
    (succ : Bool) (outs : Outputs) (entry : LogEntry)
    (hcur : st.current ≠ "end")
    (hlook : lookupTask R st.current = some tf)
    (hinv : invokeTask tf (taskKwargs st.previous_task_outputs (paramNames tf))
        st.current ((findCondition flow st.current).map Condition.outcome) = (succ, outs, entry))
    (hcond : findCondition flow st.current = some c)
    (htgt : (if (if succ then "success" else "failure") = c.outcome
        then c.target_task_success else c.target_task_failure) = none) :
    getNextTask flow st.current succ = none ∧
    execLoop R flow (fuel + 1) st
      = some (finalResult flow { st with log := st.log ++ [entry] }) ∧
    (finalResult flow { st with log := st.log ++ [entry] }).status ≠ "failure" := by
  have hg : getNextTask flow st.current succ = none := by
    unfold getNextTask
    rw [hcond]
    exact htgt
  refine ⟨hg, ?_, ?_⟩
  · rw [execLoop_step R flow fuel st tf hcur hlook, hinv]
    show (match afterInvoke R flow st succ outs entry with
          | StepOut.ret r => some r
          | StepOut.next st' => execLoop R flow fuel st') = _
    simp only [afterInvoke, hg]
  · show (if st.flow_failed then "failed" else "completed") ≠ ("failure" : String)
    by_cases hf : st.flow_failed
    · rw [if_pos hf]; decide
    · rw [if_neg hf]; decide

/-- Witness for C1 (amended): a condition whose matched `target_task_success`
is absent ends the run as a successful early stop. -/
theorem absent_target_stops_loop_witness :
    getNextTask ⟨"f1", "Flow", "a", [⟨"a", "success", none, some "end"⟩]⟩ "a" true = none ∧
    execLoop [("a", ⟨[], fun _ => Except.ok []⟩)]
        ⟨"f1", "Flow", "a", [⟨"a", "success", none, some "end"⟩]⟩ 5 ⟨[], "a", [], false⟩
      = some (finalResult ⟨"f1", "Flow", "a", [⟨"a", "success", none, some "end"⟩]⟩
          ⟨[⟨"a", some "success", true, some []⟩], "a", [], false⟩) ∧
    (finalResult ⟨"f1", "Flow", "a", [⟨"a", "success", none, some "end"⟩]⟩
        ⟨[⟨"a", some "success", true, some []⟩], "a", [], false⟩).status ≠ "failure" :=
  absent_target_stops_loop [("a", ⟨[], fun _ => Except.ok []⟩)]
    ⟨"f1", "Flow", "a", [⟨"a", "success", none, some "end"⟩]⟩ 4 ⟨[], "a", [], false⟩
    ⟨[], fun _ => Except.ok []⟩
    ⟨"a", "success", none, some "end"⟩ true [] ⟨"a", some "success", true, some []⟩
    (by decide) rfl rfl rfl rfl

/-- Counterexample to C1 as stated: in this flow a Condition exists for the
start task `a` and its branch-selected target (`target_task_success`) is
absent, yet the run does not return the unknown-task `failure` result on
the following iteration — it stops as a successful early stop with status
`completed`. -/
theorem absent_target_counterexample :
    findCondition ⟨"f1", "Flow", "a", [⟨"a", "success", none, some "end"⟩]⟩ "a"
      = some ⟨"a", "success", none, some "end"⟩ ∧
    execute [("a", ⟨[], fun _ => Except.ok []⟩)]
        ⟨"f1", "Flow", "a", [⟨"a", "success", none, some "end"⟩]⟩ 5
      = some { status := "completed", message := none
               flow_id := some "f1", flow_name := some "Flow"
               execution_log := [⟨"a", some "success", true, some []⟩] } ∧
    ("completed" : String) ≠ "failure" :=
  ⟨rfl, rfl, by decide⟩

/-- The incompatible-keys check is vacuous on an empty outputs mapping. -/
lemma incompatibleKeys_nil (names : List String) : incompatibleKeys [] names = [] := rfl

/-- C3: when the resolved next task is a real task known to the registry,
the executor aborts with status `failure` exactly when some current output
key is not among the next task's parameter names (message listing the task
pair and exactly those keys) or some required parameter of the next task is
absent from the current outputs (message listing exactly those names);
otherwise the loop continues into the next iteration.  On either abort the
result carries only the log accumulated so far (the next task is neither
invoked nor logged). -/
theorem handoff_validation_aborts_iff
    (R : Registry) (flow : Flow) (fuel : Nat) (st : EngState) (tf ntf : Task)
    (succ : Bool) (outs : Outputs) (entry : LogEntry) (nt : String)
    (hcur : st.current ≠ "end")
    (hlook : lookupTask R st.current = some tf)
    (hinv : invokeTask tf (taskKwargs st.previous_task_outputs (paramNames tf))
        st.current ((findCondition flow st.current).map Condition.outcome) = (succ, outs, entry))
    (hnext : getNextTask flow st.current succ = some nt)
    (hne : nt ≠ "end")
    (hnl : lookupTask R nt = some ntf) :
    execLoop R flow (fuel + 1) st
      = if incompatibleKeys outs (paramNames ntf) ≠ [] then
          some (failureResult
            (incompatibleMsg nt st.current (incompatibleKeys outs (paramNames ntf)))
            (st.log ++ [entry]))
        else if missingParams outs ntf.params ≠ [] then
          some (failureResult (missingMsg nt st.current (missingParams outs ntf.params))
            (st.log ++ [entry]))
        else
          execLoop R flow fuel
            { log := st.log ++ [entry], current := nt, previous_task_outputs := outs
              flow_failed := st.flow_failed || !(conditionWasMet flow st.current succ) } := by
  rw [execLoop_step R flow fuel st tf hcur hlook, hinv]
  show (match afterInvoke R flow st succ outs entry with
        | StepOut.ret r => some r
        | StepOut.next st' => execLoop R flow fuel st') = _
  have hv : validateHandoff R nt st.current outs (st.log ++ [entry])
      = if incompatibleKeys outs (paramNames ntf) ≠ [] then
          some (failureResult
            (incompatibleMsg nt st.current (incompatibleKeys outs (paramNames ntf)))
            (st.log ++ [entry]))
        else if missingParams outs ntf.params ≠ [] then
          some (failureResult (missingMsg nt st.current (missingParams outs ntf.params))
            (st.log ++ [entry]))
        else none := by
    simp only [validateHandoff, if_neg hne, hnl]
  simp only [afterInvoke, hnext, hv]
  by_cases h1 : incompatibleKeys outs (paramNames ntf) ≠ []
  · simp only [if_pos h1]
  · simp only [if_neg h1]
    by_cases h2 : missingParams outs ntf.params ≠ []
    · simp only [if_pos h2]
    · simp only [if_neg h2]

/-- Witness for C3: task `a` hands the unaccepted output key `y` to task
`b`, so the run aborts with the incompatible-outputs `failure` message
listing exactly `y`; `b` is never logged. -/
theorem handoff_validation_aborts_iff_witness :
    execLoop [("a", ⟨[], fun _ => Except.ok [("y", 2)]⟩),
              ("b", ⟨[⟨"x", true⟩], fun _ => Except.ok [("x", 1)]⟩)]
        ⟨"f6", "F6", "a", [⟨"a", "success", some "b", some "end"⟩]⟩ 5 ⟨[], "a", [], false⟩
      = some (failureResult (incompatibleMsg "b" "a" ["y"])
          [⟨"a", some "success", true, some [("y", 2)]⟩]) :=
  handoff_validation_aborts_iff
    [("a", ⟨[], fun _ => Except.ok [("y", 2)]⟩),
     ("b", ⟨[⟨"x", true⟩], fun _ => Except.ok [("x", 1)]⟩)]
    ⟨"f6", "F6", "a", [⟨"a", "success", some "b", some "end"⟩]⟩ 4 ⟨[], "a", [], false⟩
    ⟨[], fun _ => Except.ok [("y", 2)]⟩ ⟨[⟨"x", true⟩], fun _ => Except.ok [("x", 1)]⟩
    true [("y", 2)] ⟨"a", some "success", true, some [("y", 2)]⟩ "b"
    (by decide) rfl rfl rfl (by decide) rfl

/-- C10: when a task's invocation raises and the resolved next task is a
real registered task with at least one required (no-default) parameter, the
empty outputs of the faulting task make every required parameter missing,
so the run aborts with the missing-parameters `failure` result and the next
task is never invoked. -/
theorem fault_then_required_param_aborts
    (R : Registry) (flow : Flow) (fuel : Nat) (st : EngState) (tf ntf : Task)
    (err : String) (nt : String) (p : Param)
    (hcur : st.current ≠ "end")
    (hlook : lookupTask R st.current = some tf)
    (hrun : tf.run (taskKwargs st.previous_task_outputs (paramNames tf)) = Except.error err)
    (hnext : getNextTask flow st.current false = some nt)
    (hne : nt ≠ "end")
    (hnl : lookupTask R nt = some ntf)
    (hp : p ∈ ntf.params) (hpd : p.hasDefault = false) :
    missingParams [] ntf.params ≠ [] ∧
    execLoop R flow (fuel + 1) st
      = some (failureResult (missingMsg nt st.current (missingParams [] ntf.params))
          (st.log ++ [⟨st.current, (findCondition flow st.current).map Condition.outcome,
            false, none⟩])) := by
  have hmem : p.name ∈ missingParams [] ntf.params := by
    unfold missingParams requiredParams
    refine List.mem_map_of_mem Param.name ?_
    refine List.mem_filter.mpr ⟨List.mem_filter.mpr ⟨hp, ?_⟩, ?_⟩
    · rw [hpd]; rfl
    · simp
  have hmp : missingParams [] ntf.params ≠ [] := List.ne_nil_of_mem hmem
  refine ⟨hmp, ?_⟩
  have hi : invokeTask tf (taskKwargs st.previous_task_outputs (paramNames tf)) st.current
      ((findCondition flow st.current).map Condition.outcome)
    = (false, [],
        ⟨st.current, (findCondition flow st.current).map Condition.outcome, false, none⟩) := by
    unfold invokeTask
    rw [hrun]
  rw [execLoop_step R flow fuel st tf hcur hlook, hi]
  show (match afterInvoke R flow st false []
        ⟨st.current, (findCondition flow st.current).map Condition.outcome, false, none⟩ with
        | StepOut.ret r => some r
        | StepOut.next st' => execLoop R flow fuel st') = _
  have hv : validateHandoff R nt st.current []
      (st.log ++ [⟨st.current, (findCondition flow st.current).map Condition.outcome,
        false, none⟩])
    = some (failureResult (missingMsg nt st.current (missingParams [] ntf.params))
        (st.log ++ [⟨st.current, (findCondition flow st.current).map Condition.outcome,
          false, none⟩])) := by
    simp only [validateHandoff, if_neg hne, hnl]
    rw [if_neg (fun h => h (incompatibleKeys_nil (paramNames ntf)))]
    rw [if_pos hmp]
  simp only [afterInvoke, hnext, hv]

/-- Witness for C10: `a` raises, the failure branch resolves to `b`, whose
parameter `x` is required; the run aborts with the missing-parameters
message naming `x`. -/
theorem fault_then_required_param_aborts_witness :
    missingParams [] [⟨"x", false⟩] ≠ [] ∧
    execLoop [("a", ⟨[], fun _ => Except.error "boom"⟩),
              ("b", ⟨[⟨"x", false⟩], fun o => Except.ok o⟩)]
        ⟨"f8", "F8", "a", [⟨"a", "failure", some "b", some "end"⟩]⟩ 5 ⟨[], "a", [], false⟩
      = some (failureResult (missingMsg "b" "a" ["x"]) [⟨"a", some "failure", false, none⟩]) :=
  fault_then_required_param_aborts
    [("a", ⟨[], fun _ => Except.error "boom"⟩), ("b", ⟨[⟨"x", false⟩], fun o => Except.ok o⟩)]
    ⟨"f8", "F8", "a", [⟨"a", "failure", some "b", some "end"⟩]⟩ 4 ⟨[], "a", [], false⟩
    ⟨[], fun _ => Except.error "boom"⟩ ⟨[⟨"x", false⟩], fun o => Except.ok o⟩
    "boom" "b" ⟨"x", false⟩
    (by decide) rfl rfl rfl (by decide) rfl (by decide) rfl

/-- C2 (amended): when task `A`'s Condition declares desired outcome
`success` but the invocation fails, and the condition's
`target_task_failure` is present, and the hand-off validation does not
abort, the run continues with `target_task_failure` as the next task in a
state whose `flow_failed` flag is `true`; and since the flag is never
cleared, whichever result a normal loop exit then produces (a result with
no abort message) has status `failed`. -/
theorem mismatch_takes_failure_branch
    (R : Registry) (flow : Flow) (fuel : Nat) (st : EngState) (tf : Task) (c : Condition)
    (err : String) (nt : String) (r : ExecutionResult)
    (hcur : st.current ≠ "end")
    (hlook : lookupTask R st.current = some tf)
    (hrun : tf.run (taskKwargs st.previous_task_outputs (paramNames tf)) = Except.error err)
    (hcond : findCondition flow st.current = some c)
    (hout : c.outcome = "success")
    (htgt : c.target_task_failure = some nt)
    (hval : validateHandoff R nt st.current []
        (st.log ++ [⟨st.current, some "success", false, none⟩]) = none)
    (hterm : execLoop R flow fuel
        { log := st.log ++ [⟨st.current, some "success", false, none⟩]
          current := nt, previous_task_outputs := [], flow_failed := true } = some r)
    (hmsg : r.message = none) :
    getNextTask flow st.current false = some nt ∧
    execLoop R flow (fuel + 1) st
      = execLoop R flow fuel
          { log := st.log ++ [⟨st.current, some "success", false, none⟩]
            current := nt, previous_task_outputs := [], flow_failed := true } ∧
    r.status = "failed" := by
  have hg : getNextTask flow st.current false = some nt := by
    simp [getNextTask, hcond, hout, htgt]
  have hi : invokeTask tf (taskKwargs st.previous_task_outputs (paramNames tf)) st.current
      ((findCondition flow st.current).map Condition.outcome)
    = (false, [], ⟨st.current, some "success", false, none⟩) := by
    simp only [invokeTask, hrun, hcond, Option.map_some', hout]
  have hcm : conditionWasMet flow st.current false = false := by
    simp only [conditionWasMet, hcond]
    rw [hout]
    rfl
  refine ⟨hg, ?_, execLoop_failed_persists R flow fuel _ r rfl hterm hmsg⟩
  rw [execLoop_step R flow fuel st tf hcur hlook, hi]
  show (match afterInvoke R flow st false [] ⟨st.current, some "success", false, none⟩ with
        | StepOut.ret r => some r
        | StepOut.next st' => execLoop R flow fuel st') = _
  simp only [afterInvoke, hg, hval, hcm, Bool.not_false, Bool.or_true]

/-- Witness for C2 (amended): `a` (desired `success`) raises, the run
branches to `b`, whose run succeeds against its desired `failure`, and the
run exits at the end sentinel with status `failed`. -/
theorem mismatch_takes_failure_branch_witness :
    getNextTask ⟨"f4", "F4", "a", [⟨"a", "success", some "end", some "b"⟩,
        ⟨"b", "failure", some "end", some "end"⟩]⟩ "a" false = some "b" ∧
    execLoop [("a", ⟨[], fun _ => Except.error "boom"⟩),
              ("b", ⟨[⟨"x", true⟩], fun _ => Except.ok [("x", 1)]⟩)]
        ⟨"f4", "F4", "a", [⟨"a", "success", some "end", some "b"⟩,
          ⟨"b", "failure", some "end", some "end"⟩]⟩ 5 ⟨[], "a", [], false⟩
      = execLoop [("a", ⟨[], fun _ => Except.error "boom"⟩),
              ("b", ⟨[⟨"x", true⟩], fun _ => Except.ok [("x", 1)]⟩)]
          ⟨"f4", "F4", "a", [⟨"a", "success", some "end", some "b"⟩,
            ⟨"b", "failure", some "end", some "end"⟩]⟩ 4
          ⟨[⟨"a", some "success", false, none⟩], "b", [], true⟩ ∧
    ({ status := "failed", message := none, flow_id := some "f4", flow_name := some "F4"
       execution_log := [⟨"a", some "success", false, none⟩,
         ⟨"b", some "failure", true, some [("x", 1)]⟩] } : ExecutionResult).status = "failed" :=
  mismatch_takes_failure_branch
    [("a", ⟨[], fun _ => Except.error "boom"⟩), ("b", ⟨[⟨"x", true⟩], fun _ => Except.ok [("x", 1)]⟩)]
    ⟨"f4", "F4", "a", [⟨"a", "success", some "end", some "b"⟩,
      ⟨"b", "failure", some "end", some "end"⟩]⟩ 4 ⟨[], "a", [], false⟩
    ⟨[], fun _ => Except.error "boom"⟩ ⟨"a", "success", some "end", some "b"⟩
    "boom" "b"
    { status := "failed", message := none, flow_id := some "f4", flow_name := some "F4"
      execution_log := [⟨"a", some "success", false, none⟩,
        ⟨"b", some "failure", true, some [("x", 1)]⟩] }
    (by decide) rfl rfl rfl rfl rfl rfl rfl rfl

/-- Counterexample to C2 as stated: `a`'s Condition declares desired
outcome `success` and `a`'s invocation fails, yet because
`target_task_failure` is absent the loop breaks before `flow_failed` is
set: the run exits the loop normally with status `completed`, not
`failed`. -/
theorem mismatch_absent_target_counterexample :
    findCondition ⟨"f2", "Flow2", "a", [⟨"a", "success", some "end", none⟩]⟩ "a"
      = some ⟨"a", "success", some "end", none⟩ ∧
    (⟨[], fun _ => Except.error "boom"⟩ : Task).run [] = Except.error "boom" ∧
    execute [("a", ⟨[], fun _ => Except.error "boom"⟩)]
        ⟨"f2", "Flow2", "a", [⟨"a", "success", some "end", none⟩]⟩ 5
      = some { status := "completed", message := none
               flow_id := some "f2", flow_name := some "Flow2"
               execution_log := [⟨"a", some "success", false, none⟩] } ∧
    ("completed" : String) ≠ "failed" :=
  ⟨rfl, rfl, rfl, by decide⟩

/-- C7: every result the executor can return is one of two shapes — status
`failure` with a message and no flow id/name, or status `completed`/`failed`
with no message and the input flow's id and name. -/
theorem result_shape_matches_status
    (R : Registry) (flow : Flow) (fuel : Nat) (r : ExecutionResult)
    (h : execute R flow fuel = some r) :
    (r.status = "failure" ∧ r.message.isSome = true ∧ r.flow_id = none ∧ r.flow_name = none) ∨
    ((r.status = "completed" ∨ r.status = "failed") ∧ r.message = none ∧
      r.flow_id = some flow.id ∧ r.flow_name = some flow.name) :=
  execLoop_shape R flow fuel (initState flow) r h

/-- Witness for C7: the result of a completed concrete run satisfies the
terminal shape. -/
theorem result_shape_matches_status_witness :
    (("completed" : String) = "failure" ∧ (none : Option String).isSome = true ∧
      (some "f3" : Option String) = none ∧ (some "F3" : Option String) = none) ∨
    ((("completed" : String) = "completed" ∨ ("completed" : String) = "failed") ∧
      (none : Option String) = none ∧ (some "f3" : Option String) = some "f3" ∧
      (some "F3" : Option String) = some "F3") :=
  result_shape_matches_status [("a", ⟨[], fun _ => Except.ok []⟩)]
    ⟨"f3", "F3", "a", [⟨"a", "success", some "end", some "end"⟩]⟩ 5
    { status := "completed", message := none, flow_id := some "f3", flow_name := some "F3"
      execution_log := [⟨"a", some "success", true, some []⟩] } rfl

/-- C8: the argument set passed to a task invocation is exactly the
restriction of the previous task's outputs to the current task's parameter
names — an entry is passed iff it occurs in the previous outputs and its
name is a parameter name, and unmatched entries are silently dropped while
the run proceeds into the invocation. -/
theorem kwargs_restriction
    (R : Registry) (flow : Flow) (fuel : Nat) (st : EngState) (tf : Task)
    (kv : String × Value)
    (hcur : st.current ≠ "end")
    (hlook : lookupTask R st.current = some tf) :
    (kv ∈ taskKwargs st.previous_task_outputs (paramNames tf) ↔
      kv ∈ st.previous_task_outputs ∧ kv.1 ∈ paramNames tf) ∧
    execLoop R flow (fuel + 1) st
      = (match invokeTask tf (taskKwargs st.previous_task_outputs (paramNames tf))
            st.current ((findCondition flow st.current).map Condition.outcome) with
         | (s, o, e) =>
           match afterInvoke R flow st s o e with
           | StepOut.ret r => some r
           | StepOut.next st' => execLoop R flow fuel st') := by
  refine ⟨?_, execLoop_step R flow fuel st tf hcur hlook⟩
  simp [taskKwargs, List.mem_filter]

/-- Witness for C8: with previous outputs `x, y` and a task accepting only
`x`, the entry `x` is passed, `y` is dropped, and the run completes. -/
theorem kwargs_restriction_witness :
    (("x", 5) ∈ taskKwargs [("x", 5), ("y", 7)] (paramNames ⟨[⟨"x", true⟩], fun o => Except.ok o⟩) ↔
      ("x", 5) ∈ ([("x", 5), ("y", 7)] : Outputs) ∧
        "x" ∈ paramNames ⟨[⟨"x", true⟩], fun o => Except.ok o⟩) ∧
    execLoop [("b", ⟨[⟨"x", true⟩], fun o => Except.ok o⟩)] ⟨"fk", "FK", "b", []⟩ 5
        ⟨[], "b", [("x", 5), ("y", 7)], false⟩
      = some { status := "completed", message := none
               flow_id := some "fk", flow_name := some "FK"
               execution_log := [⟨"b", none, true, some [("x", 5)]⟩] } :=
  kwargs_restriction [("b", ⟨[⟨"x", true⟩], fun o => Except.ok o⟩)] ⟨"fk", "FK", "b", []⟩ 4
    ⟨[], "b", [("x", 5), ("y", 7)], false⟩ ⟨[⟨"x", true⟩], fun o => Except.ok o⟩
    ("x", 5) (by decide) rfl

/-- C9: the engine is deterministic and keeps no state across calls: a run
leaves the engine (whose only attribute is the registry of tasks, which in
this embedding are pure functions) unchanged, and invoking it again on the
same flow from the post-run engine yields the identical result. -/
theorem engine_run_deterministic (engine : FlowEngine) (flow : Flow) (fuel : Nat) :
    (engine.run flow fuel).2 = engine ∧
    ((engine.run flow fuel).2).run flow fuel = engine.run flow fuel :=
  ⟨rfl, rfl⟩

end FlowManager
